import Mathlib

/-!
Shallow embedding of the retry/backoff executor (`src/utils.py`,
`invoke_with_retry`) and of the SQL denylist filter
(`src/database.py`, `RNAseqDatabase.execute_query`) of the
rnaseq-assistant-agent repository, together with theorems settling the
specification claims about them.

Modelling conventions:
* The wrapped callable (`agent.invoke`) is a function from the 0-based
  invocation index to an outcome: either a successful result dictionary
  or a raised exception.  Exceptions are opaque values of a type `E`
  together with a rendering function `toStr : E → String` standing for
  Python `str(e)`.
* `random.uniform(0, 1)` is modelled by a symbolic jitter function
  `Nat → ℚ`; theorems quantify over it with the bounds `0 ≤ j < 1`
  that `random.uniform(0, 1)` guarantees.
* The executor is instrumented: besides the Python return value (or the
  raised exception) the embedding records how many times the callable
  was invoked and the list of sleep durations, in order.
* Python falling off the end of the function body (which returns
  `None`) is modelled by the dedicated constructor `returnedNone`.
-/

namespace RnaseqAssistant

/-- Shape of a successful agent response: a dictionary with an
`"output"` string and an `"intermediate_steps"` list. -/
structure AgentResult (Step : Type) where
  output : String
  intermediate_steps : List Step
deriving DecidableEq

/-- Outcome of one invocation of the wrapped callable: a normal return
value, or a raised exception of type `E`. -/
inductive CallOutcome (Step E : Type) where
  | ok (res : AgentResult Step)
  | err (e : E)
deriving DecidableEq

/-- How a call to `invoke_with_retry` terminates: a returned dictionary
(real result or fallback), a re-raised exception, or Python's implicit
`None` when the `for` loop body never runs. -/
inductive RetryResult (Step E : Type) where
  | returned (res : AgentResult Step)
  | raised (e : E)
  | returnedNone
deriving DecidableEq

/-- Instrumented account of one call to `invoke_with_retry`: its
termination, the number of invocations of the callable, and the sleep
durations in order. -/
structure RetryTrace (Step E : Type) where
  result : RetryResult Step E
  invocations : Nat
  sleeps : List ℚ
deriving DecidableEq

/-- Python's `needle in hay` on strings: substring containment. -/
def containsSub (needle hay : String) : Bool :=
  decide (List.IsInfix needle.toList hay.toList)

/-- Python `s.lower()`: lower-case every character (character-level map,
which agrees with Python on the ASCII text these claims concern). -/
def strLower (s : String) : String :=
  String.mk (s.data.map Char.toLower)

/-- Python `s.upper()`: upper-case every character (character-level map,
which agrees with Python on the ASCII text these claims concern). -/
def strUpper (s : String) : String :=
  String.mk (s.data.map Char.toUpper)

/-- From `src/utils.py` line 21: an exception is treated as a rate-limit
(retryable) error when its lower-cased string rendering contains
`"429"`, `"rate limit"` or `"capacity"` as a substring. -/
def isRateLimitError (s : String) : Bool :=
  let errorStr := strLower s
  containsSub "429" errorStr || containsSub "rate limit" errorStr ||
    containsSub "capacity" errorStr

/-- From `src/utils.py` line 24: `delay = min(2 ** attempt + random.uniform(0, 1), 30)`,
with the drawn jitter value passed in explicitly. -/
def computeDelay (attempt : Nat) (jitterValue : ℚ) : ℚ :=
  min ((2 : ℚ) ^ attempt + jitterValue) 30

/-- From `src/utils.py` lines 29-33: the dictionary returned when all
retries are exhausted. -/
def fallbackResult {Step : Type} : AgentResult Step :=
  { output := "MistralAI is currently at capacity. Please try again in a few moments.",
    intermediate_steps := [] }

/-- The `for attempt in range(max_retries)` loop of `invoke_with_retry`
(`src/utils.py` lines 13-36), as structural recursion on the number of
remaining iterations.  `attempt` is the current 0-based loop index. -/
def retryFrom {Step E : Type} (agent : Nat → CallOutcome Step E) (toStr : E → String)
    (maxRetries : Nat) (jitter : Nat → ℚ) (attempt : Nat) :
    Nat → RetryTrace Step E
  | 0 => { result := .returnedNone, invocations := 0, sleeps := [] }
  | remaining + 1 =>
    match agent attempt with
    | .ok res => { result := .returned res, invocations := 1, sleeps := [] }
    | .err e =>
      if isRateLimitError (toStr e) then
        if attempt < maxRetries - 1 then
          let rest := retryFrom agent toStr maxRetries jitter (attempt + 1) remaining
          { result := rest.result, invocations := rest.invocations + 1,
            sleeps := computeDelay attempt (jitter attempt) :: rest.sleeps }
        else
          { result := .returned fallbackResult, invocations := 1, sleeps := [] }
      else
        { result := .raised e, invocations := 1, sleeps := [] }

/-- The function `invoke_with_retry(agent, input_dict, max_retries)` from
`src/utils.py`: run the loop from attempt 0 with `max_retries`
iterations available. -/
def invokeWithRetry {Step E : Type} (agent : Nat → CallOutcome Step E) (toStr : E → String)
    (maxRetries : Nat) (jitter : Nat → ℚ) : RetryTrace Step E :=
  retryFrom agent toStr maxRetries jitter 0 maxRetries

/-! ### Embedding of `RNAseqDatabase.execute_query` (`src/database.py`) -/

/-- What the underlying SQLite engine does with a query that reaches
`cursor.execute`: produce column names and rows, or raise. -/
inductive EngineOutcome (Cell : Type) where
  | ok (columns : List String) (rows : List (List Cell))
  | raised (msg : String)
deriving DecidableEq

/-- The dictionary `execute_query` returns: an `{"error": ...}`
dictionary, or the success dictionary with `data`, `columns` and
`row_count`. -/
inductive QueryResult (Cell : Type) where
  | error (msg : String)
  | success (data : List (List (String × Cell))) (columns : List String) (rowCount : Nat)
deriving DecidableEq

/-- Instrumented account of one `execute_query` call: its return value
and whether the query was actually executed against the database. -/
structure QueryTrace (Cell : Type) where
  result : QueryResult Cell
  executed : Bool
deriving DecidableEq

/-- From `src/database.py` line 36: the denylist. -/
def dangerous_keywords : List String :=
  ["DROP", "DELETE", "INSERT", "UPDATE", "ALTER", "CREATE"]

/-- From `src/database.py` line 37: a query is refused when its upper-cased
text contains any denylisted keyword as a substring. -/
def isDangerousQuery (query : String) : Bool :=
  dangerous_keywords.any fun keyword => containsSub keyword (strUpper query)

/-- The method `RNAseqDatabase.execute_query` (`src/database.py` lines 28-61).
`hasConnection` models `self.connection` being set; `connectOk` models
whether `self.connect()` would succeed; `engine` abstracts the SQLite
cursor acting on the query string. -/
def execute_query {Cell : Type} (hasConnection : Bool) (connectOk : Bool)
    (engine : String → EngineOutcome Cell) (query : String) : QueryTrace Cell :=
  if !hasConnection && !connectOk then
    { result := .error "Database connection failed", executed := false }
  else if isDangerousQuery query then
    { result := .error "Only SELECT queries are allowed", executed := false }
  else
    match engine query with
    | .ok cols rows =>
        { result := .success (rows.map fun row => cols.zip row) cols rows.length,
          executed := true }
    | .raised msg =>
        { result := .error ("Query execution failed: " ++ msg), executed := true }

/-! ### Unfolding and structural lemmas for the retry loop -/

section RetryLemmas

variable {Step E : Type} (agent : Nat → CallOutcome Step E) (toStr : E → String)
  (n : Nat) (jit : Nat → ℚ)

/-- One-step unfolding of the loop when at least one iteration remains. -/
theorem retryFrom_succ (a r : Nat) :
    retryFrom agent toStr n jit a (r + 1) =
      match agent a with
      | .ok res => { result := .returned res, invocations := 1, sleeps := [] }
      | .err e =>
        if isRateLimitError (toStr e) then
          if a < n - 1 then
            let rest := retryFrom agent toStr n jit (a + 1) r
            { result := rest.result, invocations := rest.invocations + 1,
              sleeps := computeDelay a (jit a) :: rest.sleeps }
          else
            { result := .returned fallbackResult, invocations := 1, sleeps := [] }
        else
          { result := .raised e, invocations := 1, sleeps := [] } := by
  simp only [retryFrom]

/-- The callable is invoked at most once per remaining loop iteration. -/
theorem retryFrom_invocations_le (r : Nat) : ∀ a : Nat,
    (retryFrom agent toStr n jit a r).invocations ≤ r := by
  induction r with
  | zero => intro a; simp [retryFrom]
  | succ r ih =>
    intro a
    rw [retryFrom_succ]
    cases h : agent a with
    | ok res => simp
    | err e =>
      by_cases hr : isRateLimitError (toStr e) = true
      · by_cases ha : a < n - 1
        · simpa [hr, ha] using Nat.succ_le_succ (ih (a + 1))
        · simp [hr, ha]
      · simp [hr]

/-- With at least one remaining iteration the callable is invoked at
least once. -/
theorem retryFrom_invocations_pos (a r : Nat) :
    1 ≤ (retryFrom agent toStr n jit a (r + 1)).invocations := by
  rw [retryFrom_succ]
  cases h : agent a with
  | ok res => simp
  | err e =>
    by_cases hr : isRateLimitError (toStr e) = true
    · by_cases ha : a < n - 1 <;> simp [hr, ha]
    · simp [hr]

/-- Full behaviour of the loop over a callable whose every invocation
raises a retryable error: the loop uses up all remaining iterations,
sleeps after each attempt but the last, and returns the fallback. -/
theorem retryFrom_allRetryable
    (hret : ∀ i, ∃ e, agent i = .err e ∧ isRateLimitError (toStr e) = true) :
    ∀ r a, 1 ≤ r → a + r = n →
    retryFrom agent toStr n jit a r =
      { result := .returned fallbackResult, invocations := r,
        sleeps := (List.range' a (r - 1)).map fun t => computeDelay t (jit t) } := by
  intro r
  induction r with
  | zero => intro a h1 _; omega
  | succ r ih =>
    intro a _ hn
    obtain ⟨e, he, hrl⟩ := hret a
    rw [retryFrom_succ, he]
    rcases Nat.eq_zero_or_pos r with hr0 | hrpos
    · subst hr0
      have hcond : ¬ a < n - 1 := by omega
      simp [hrl, hcond]
    · have hcond : a < n - 1 := by omega
      rw [ih (a + 1) hrpos (by omega)]
      have hr1 : r + 1 - 1 = (r - 1) + 1 := by omega
      simp only [hrl, if_true, hcond, hr1, List.range'_succ, List.map_cons]

/-- Behaviour of the loop over a callable that raises retryable errors
until attempt `m` (0-based) and succeeds there: the loop stops at `m`
and hands back the callable's result. -/
theorem retryFrom_success_at (res : AgentResult Step) (m : Nat)
    (hm : agent m = .ok res)
    (hfail : ∀ i, i < m → ∃ e, agent i = .err e ∧ isRateLimitError (toStr e) = true) :
    ∀ r a, a + r = n → a ≤ m → m < n →
    (retryFrom agent toStr n jit a r).result = .returned res ∧
    (retryFrom agent toStr n jit a r).invocations = m + 1 - a := by
  intro r
  induction r with
  | zero => intro a hn ham hmn; omega
  | succ r ih =>
    intro a hn ham hmn
    rcases eq_or_lt_of_le ham with hae | halt
    · subst hae
      rw [retryFrom_succ, hm]
      constructor
      · rfl
      · simp
    · obtain ⟨e, he, hrl⟩ := hfail a halt
      rw [retryFrom_succ, he]
      have hcond : a < n - 1 := by omega
      obtain ⟨ih1, ih2⟩ := ih (a + 1) (by omega) (by omega) hmn
      simp only [hrl, if_true, hcond]
      refine ⟨ih1, ?_⟩
      simp only [ih2]
      omega

/-- With at least one loop iteration available, the call never falls
off the end of the loop: it returns a dictionary or raises. -/
theorem retryFrom_result_ne_none :
    ∀ r a, 1 ≤ r → a + r = n →
    (retryFrom agent toStr n jit a r).result ≠ RetryResult.returnedNone := by
  intro r
  induction r with
  | zero => intro a h1 _; omega
  | succ r ih =>
    intro a _ hn
    rw [retryFrom_succ]
    cases h : agent a with
    | ok res => simp
    | err e =>
      by_cases hrl : isRateLimitError (toStr e) = true
      · by_cases hcond : a < n - 1
        · have hr1 : 1 ≤ r := by omega
          simpa [hrl, hcond] using ih (a + 1) hr1 (by omega)
        · simp [hrl, hcond]
      · simp [hrl]

/-- Every invocation of the callable other than the last one the loop
makes raised a retryable error: in particular the loop never re-invokes
the callable after a non-retryable failure (or after a success). -/
theorem retryFrom_pre_last_retryable :
    ∀ r a i, a ≤ i → i + 1 < a + (retryFrom agent toStr n jit a r).invocations →
    ∃ e, agent i = .err e ∧ isRateLimitError (toStr e) = true := by
  intro r
  induction r with
  | zero =>
    intro a i hai hi
    simp only [retryFrom] at hi
    omega
  | succ r ih =>
    intro a i hai hi
    rw [retryFrom_succ] at hi
    cases h : agent a with
    | ok res => rw [h] at hi; simp at hi; omega
    | err e =>
      rw [h] at hi
      by_cases hrl : isRateLimitError (toStr e) = true
      · by_cases hcond : a < n - 1
        · simp only [hrl, if_true, hcond] at hi
          rcases eq_or_lt_of_le hai with hae | halt
          · exact ⟨e, hae ▸ h, hrl⟩
          · exact ih (a + 1) i halt (by omega)
        · simp [hrl, hcond] at hi; omega
      · simp [hrl] at hi; omega

end RetryLemmas

/-! ### Claim theorems -/

/-- C1: for every retry policy with `max_retries = n` (`n` positive) and
every callable that raises a retryable error on every invocation,
`invoke_with_retry` invokes the callable exactly `n` times and returns
the Fallback Result rather than raising. -/
theorem c1_always_retryable_exhausts {Step E : Type}
    (agent : Nat → CallOutcome Step E) (toStr : E → String) (jit : Nat → ℚ) (n : Nat)
    (hn : 0 < n)
    (hret : ∀ i, ∃ e, agent i = .err e ∧ isRateLimitError (toStr e) = true) :
    (invokeWithRetry agent toStr n jit).invocations = n ∧
    (invokeWithRetry agent toStr n jit).result = .returned fallbackResult := by
  rw [invokeWithRetry, retryFrom_allRetryable agent toStr n jit hret n 0 hn (by omega)]
  exact ⟨rfl, rfl⟩

theorem c1_witness :
    0 < 3 ∧
    ((invokeWithRetry (fun _ => CallOutcome.err "429" : Nat → CallOutcome Unit String)
        id 3 fun _ => 0).invocations = 3 ∧
      (invokeWithRetry (fun _ => CallOutcome.err "429" : Nat → CallOutcome Unit String)
        id 3 fun _ => 0).result = .returned fallbackResult) :=
  ⟨by decide, c1_always_retryable_exhausts _ _ _ 3 (by decide)
    fun _ => ⟨"429", rfl, by decide⟩⟩

/-- C2: for every retry policy and every callable raising a fatal
(non-retryable) error on the first invocation, `invoke_with_retry`
invokes the callable exactly once, sleeps never, and re-raises the
very same exception value. -/
theorem c2_fatal_reraised {Step E : Type}
    (agent : Nat → CallOutcome Step E) (toStr : E → String) (jit : Nat → ℚ)
    (n : Nat) (e : E)
    (hn : 1 ≤ n) (h0 : agent 0 = .err e) (hf : isRateLimitError (toStr e) = false) :
    invokeWithRetry agent toStr n jit =
      { result := .raised e, invocations := 1, sleeps := [] } := by
  obtain ⟨m, rfl⟩ : ∃ m, n = m + 1 := ⟨n - 1, by omega⟩
  rw [invokeWithRetry, retryFrom_succ, h0]
  simp [hf]

theorem c2_witness :
    1 ≤ 2 ∧ isRateLimitError (id "invalid API key") = false ∧
    invokeWithRetry (fun _ => CallOutcome.err "invalid API key" : Nat → CallOutcome Unit String)
        id 2 (fun _ => 0) =
      { result := .raised "invalid API key", invocations := 1, sleeps := [] } :=
  ⟨by decide, by decide,
    c2_fatal_reraised _ _ _ 2 _ (by decide) rfl (by decide)⟩

/-- C3: for every retry policy with `max_retries = n` and every callable
that raises retryable errors on its first `k - 1` invocations and
succeeds on invocation `k ≤ n`, `invoke_with_retry` invokes the callable
exactly `k` times and returns the callable's result unmodified. -/
theorem c3_success_at_k {Step E : Type}
    (agent : Nat → CallOutcome Step E) (toStr : E → String) (jit : Nat → ℚ)
    (n k : Nat) (res : AgentResult Step)
    (hk : 1 ≤ k) (hkn : k ≤ n)
    (hfail : ∀ i, i < k - 1 → ∃ e, agent i = .err e ∧ isRateLimitError (toStr e) = true)
    (hsucc : agent (k - 1) = .ok res) :
    (invokeWithRetry agent toStr n jit).invocations = k ∧
    (invokeWithRetry agent toStr n jit).result = .returned res := by
  obtain ⟨h1, h2⟩ := retryFrom_success_at agent toStr n jit res (k - 1) hsucc hfail
    n 0 (by omega) (by omega) (by omega)
  refine ⟨?_, ?_⟩
  · rw [invokeWithRetry, h2]; omega
  · rw [invokeWithRetry]; exact h1

theorem c3_witness :
    1 ≤ 2 ∧ 2 ≤ 3 ∧
    ((invokeWithRetry
        (fun i => if i = 0 then CallOutcome.err "429" else CallOutcome.ok ⟨"answer", []⟩ :
          Nat → CallOutcome Unit String) id 3 fun _ => 0).invocations = 2 ∧
      (invokeWithRetry
        (fun i => if i = 0 then CallOutcome.err "429" else CallOutcome.ok ⟨"answer", []⟩ :
          Nat → CallOutcome Unit String) id 3 fun _ => 0).result = .returned ⟨"answer", []⟩) :=
  ⟨by decide, by decide,
    c3_success_at_k _ _ _ 3 2 _ (by decide) (by decide)
      (fun i hi => by
        have h0 : i = 0 := by omega
        subst h0
        exact ⟨"429", rfl, by decide⟩)
      rfl⟩

/-- C4 (as stated) is false: for attempt index 5 with jitter 0 (a value
`random.uniform(0, 1)` can produce), the computed delay is 30 while the
claimed lower bound `base_delay * 2^5` is 32; the delay of attempt 5 is
really computed in a run with `max_retries = 7` on an always-retryable
callable. -/
theorem c4_counterexample :
    (0 : ℚ) ≤ 0 ∧ (0 : ℚ) < 1 ∧
    (invokeWithRetry (fun _ => CallOutcome.err "429" : Nat → CallOutcome Unit String)
        id 7 fun _ => 0).sleeps.getLast? = some (computeDelay 5 0) ∧
    ¬ ((1 : ℚ) * 2 ^ (5 : ℕ) ≤ computeDelay 5 0) := by
  refine ⟨le_refl 0, by norm_num, rfl, ?_⟩
  rw [computeDelay]
  norm_num [min_def]

/-- C4 (amended): for every attempt index `i` and every jitter value in
`[0, 1)`, the computed delay satisfies
`min(base_delay * 2^i, max_delay) ≤ delay ≤ min(base_delay * 2^i + jitter_max, max_delay)`
with `base_delay = 1`, `jitter_max = 1` and `max_delay = 30`; the
unclamped lower bound `base_delay * 2^i` of the original claim holds
only while `base_delay * 2^i ≤ max_delay`. -/
theorem c4_amended (i : Nat) (j : ℚ) (h0 : 0 ≤ j) (h1 : j < 1) :
    min ((1 : ℚ) * 2 ^ i) 30 ≤ computeDelay i j ∧
    computeDelay i j ≤ min ((1 : ℚ) * 2 ^ i + 1) 30 := by
  rw [computeDelay]
  constructor
  · exact min_le_min (by rw [one_mul]; linarith) (le_refl 30)
  · exact min_le_min (by rw [one_mul]; linarith) (le_refl 30)

theorem c4_witness :
    (0 : ℚ) ≤ 0 ∧ (0 : ℚ) < 1 ∧
    (min ((1 : ℚ) * 2 ^ (0 : ℕ)) 30 ≤ computeDelay 0 0 ∧
      computeDelay 0 0 ≤ min ((1 : ℚ) * 2 ^ (0 : ℕ) + 1) 30) :=
  ⟨le_refl 0, zero_lt_one, c4_amended 0 0 (le_refl 0) zero_lt_one⟩

/-- C5 (as stated, for every input) is false: with `max_retries = 0` the
`for` loop body never runs, so the Python function falls off its end and
returns `None` — it neither returns a well-formed result dictionary nor
raises. -/
theorem c5_counterexample :
    (invokeWithRetry (fun _ => CallOutcome.ok ⟨"hi", []⟩ : Nat → CallOutcome Unit String)
        id 0 fun _ => 0).result = RetryResult.returnedNone ∧
    (invokeWithRetry (fun _ => CallOutcome.ok ⟨"hi", []⟩ : Nat → CallOutcome Unit String)
        id 0 fun _ => 0).invocations = 0 :=
  ⟨rfl, rfl⟩

/-- C5 (amended): for every input with `max_retries ≥ 1`,
`invoke_with_retry` either returns a result dictionary (real or
fallback) or raises; every invocation before the last one raised a
retryable error (so it never re-invokes after a non-retryable failure);
and the number of invocations never exceeds `max_retries`. -/
theorem c5_amended {Step E : Type}
    (agent : Nat → CallOutcome Step E) (toStr : E → String) (jit : Nat → ℚ)
    (n : Nat) (hn : 1 ≤ n) :
    ((∃ res, (invokeWithRetry agent toStr n jit).result = .returned res) ∨
      (∃ e, (invokeWithRetry agent toStr n jit).result = .raised e)) ∧
    (∀ i, i + 1 < (invokeWithRetry agent toStr n jit).invocations →
      ∃ e, agent i = .err e ∧ isRateLimitError (toStr e) = true) ∧
    (invokeWithRetry agent toStr n jit).invocations ≤ n := by
  refine ⟨?_, ?_, ?_⟩
  · have hne := retryFrom_result_ne_none agent toStr n jit n 0 hn (by omega)
    rw [invokeWithRetry]
    cases h : (retryFrom agent toStr n jit 0 n).result with
    | returned res => exact Or.inl ⟨res, rfl⟩
    | raised e => exact Or.inr ⟨e, rfl⟩
    | returnedNone => exact absurd h hne
  · intro i hi
    exact retryFrom_pre_last_retryable agent toStr n jit n 0 i (Nat.zero_le i)
      (by simpa using hi)
  · exact retryFrom_invocations_le agent toStr n jit n 0

theorem c5_witness :
    1 ≤ 1 ∧
    (((∃ res, (invokeWithRetry
          (fun _ => CallOutcome.ok ⟨"hi", []⟩ : Nat → CallOutcome Unit String)
          id 1 fun _ => 0).result = .returned res) ∨
        (∃ e, (invokeWithRetry
          (fun _ => CallOutcome.ok ⟨"hi", []⟩ : Nat → CallOutcome Unit String)
          id 1 fun _ => 0).result = .raised e)) ∧
      (∀ i, i + 1 < (invokeWithRetry
          (fun _ => CallOutcome.ok ⟨"hi", []⟩ : Nat → CallOutcome Unit String)
          id 1 fun _ => 0).invocations →
        ∃ e, (fun _ => CallOutcome.ok ⟨"hi", []⟩ : Nat → CallOutcome Unit String) i = .err e ∧
          isRateLimitError (id e) = true) ∧
      (invokeWithRetry (fun _ => CallOutcome.ok ⟨"hi", []⟩ : Nat → CallOutcome Unit String)
          id 1 fun _ => 0).invocations ≤ 1) :=
  ⟨le_refl 1, c5_amended _ _ _ 1 (le_refl 1)⟩

/-- C6: with `max_retries = 3` and a callable raising "429 rate limit"
on every attempt, the executor sleeps exactly twice — first in `[1, 2)`
seconds, then in `[2, 3)` seconds — and returns the Fallback Result
after the third failure without a third sleep. -/
theorem c6_scenario (jit : Nat → ℚ)
    (h00 : 0 ≤ jit 0) (h01 : jit 0 < 1) (h10 : 0 ≤ jit 1) (h11 : jit 1 < 1) :
    ∃ d0 d1 : ℚ,
      invokeWithRetry (fun _ => CallOutcome.err "429 rate limit" : Nat → CallOutcome Unit String)
          id 3 jit =
        { result := .returned fallbackResult, invocations := 3, sleeps := [d0, d1] } ∧
      1 ≤ d0 ∧ d0 < 2 ∧ 2 ≤ d1 ∧ d1 < 3 := by
  have hmin0 : ((2 : ℚ) ^ (0 : ℕ) + jit 0) ≤ 30 := by rw [pow_zero]; linarith
  have hmin1 : ((2 : ℚ) ^ (1 : ℕ) + jit 1) ≤ 30 := by rw [pow_one]; linarith
  refine ⟨computeDelay 0 (jit 0), computeDelay 1 (jit 1), ?_, ?_, ?_, ?_, ?_⟩
  · rw [invokeWithRetry,
      retryFrom_allRetryable _ _ _ _ (fun _ => ⟨"429 rate limit", rfl, by decide⟩)
        3 0 (by omega) (by omega)]
    simp [List.range'_succ]
  · rw [computeDelay, min_eq_left hmin0, pow_zero]; linarith
  · rw [computeDelay, min_eq_left hmin0, pow_zero]; linarith
  · rw [computeDelay, min_eq_left hmin1, pow_one]; linarith
  · rw [computeDelay, min_eq_left hmin1, pow_one]; linarith

theorem c6_witness :
    (0 : ℚ) ≤ 0 ∧ (0 : ℚ) < 1 ∧
    (∃ d0 d1 : ℚ,
      invokeWithRetry (fun _ => CallOutcome.err "429 rate limit" : Nat → CallOutcome Unit String)
          id 3 (fun _ => 0) =
        { result := .returned fallbackResult, invocations := 3, sleeps := [d0, d1] } ∧
      1 ≤ d0 ∧ d0 < 2 ∧ 2 ≤ d1 ∧ d1 < 3) :=
  ⟨le_refl 0, zero_lt_one,
    c6_scenario (fun _ => 0) (le_refl 0) zero_lt_one (le_refl 0) zero_lt_one⟩

/-- C7: when retries are exhausted, the returned value has the shape of
a normal successful agent result: an `output` field carrying the
human-readable at-capacity message and an `intermediate_steps` field
carrying an empty payload, so callers never see the raw exception. -/
theorem c7_fallback_shape {Step E : Type}
    (agent : Nat → CallOutcome Step E) (toStr : E → String) (jit : Nat → ℚ) (n : Nat)
    (hn : 0 < n)
    (hret : ∀ i, ∃ e, agent i = .err e ∧ isRateLimitError (toStr e) = true) :
    ∃ res : AgentResult Step,
      (invokeWithRetry agent toStr n jit).result = .returned res ∧
      res.output = "MistralAI is currently at capacity. Please try again in a few moments." ∧
      res.intermediate_steps = [] := by
  refine ⟨fallbackResult, ?_, rfl, rfl⟩
  rw [invokeWithRetry, retryFrom_allRetryable agent toStr n jit hret n 0 hn (by omega)]

theorem c7_witness :
    0 < 2 ∧
    (∃ res : AgentResult Unit,
      (invokeWithRetry (fun _ => CallOutcome.err "rate limit hit" : Nat → CallOutcome Unit String)
          id 2 fun _ => 0).result = .returned res ∧
      res.output = "MistralAI is currently at capacity. Please try again in a few moments." ∧
      res.intermediate_steps = []) :=
  ⟨by decide, c7_fallback_shape _ _ _ 2 (by decide)
    fun _ => ⟨"rate limit hit", rfl, by decide⟩⟩

/-- C8: every query whose upper-cased text contains a denylisted keyword
is answered with the dictionary `{"error": "Only SELECT queries are
allowed"}` and is never executed against the database. -/
theorem c8_denylist_rejects {Cell : Type} (connectOk : Bool)
    (engine : String → EngineOutcome Cell) (query : String)
    (hk : ∃ k ∈ dangerous_keywords, containsSub k (strUpper query) = true) :
    execute_query true connectOk engine query =
      { result := .error "Only SELECT queries are allowed", executed := false } := by
  have hd : isDangerousQuery query = true := by
    rw [isDangerousQuery, List.any_eq_true]
    obtain ⟨k, hmem, hsub⟩ := hk
    exact ⟨k, hmem, hsub⟩
  rw [execute_query]
  simp [hd]

theorem c8_witness :
    (∃ k ∈ dangerous_keywords, containsSub k (strUpper "DROP TABLE samples") = true) ∧
    execute_query true true (fun _ => EngineOutcome.ok [] ([] : List (List Unit)))
        "DROP TABLE samples" =
      { result := .error "Only SELECT queries are allowed", executed := false } :=
  ⟨⟨"DROP", by decide, by decide⟩,
    c8_denylist_rejects true (fun _ => EngineOutcome.ok [] ([] : List (List Unit)))
      "DROP TABLE samples" ⟨"DROP", by decide, by decide⟩⟩

/-- C9: `invoke_with_retry` treats an exception as retryable exactly
when the lower-cased rendering contains "429", "rate limit" or
"capacity"; any other exception stops the loop at one invocation and is
re-raised, while a matching one leads to at least a second invocation. -/
theorem c9_classification {Step E : Type}
    (agent : Nat → CallOutcome Step E) (toStr : E → String) (jit : Nat → ℚ)
    (n : Nat) (e : E)
    (hn : 2 ≤ n) (h0 : agent 0 = .err e) :
    (isRateLimitError (toStr e) = false →
      invokeWithRetry agent toStr n jit =
        { result := .raised e, invocations := 1, sleeps := [] }) ∧
    (isRateLimitError (toStr e) = true →
      2 ≤ (invokeWithRetry agent toStr n jit).invocations) := by
  constructor
  · intro hf
    obtain ⟨m, rfl⟩ : ∃ m, n = m + 1 := ⟨n - 1, by omega⟩
    rw [invokeWithRetry, retryFrom_succ, h0]
    simp [hf]
  · intro ht
    obtain ⟨m, rfl⟩ : ∃ m, n = m + 2 := ⟨n - 2, by omega⟩
    rw [invokeWithRetry, retryFrom_succ, h0]
    have hcond : 0 < m + 2 - 1 := by omega
    have hpos := retryFrom_invocations_pos agent toStr (m + 2) jit 1 m
    simp [ht, hcond]
    omega

theorem c9_witness :
    2 ≤ 2 ∧ isRateLimitError (id "invalid API key") = false ∧
    invokeWithRetry (fun _ => CallOutcome.err "invalid API key" : Nat → CallOutcome Unit String)
        id 2 (fun _ => 0) =
      { result := .raised "invalid API key", invocations := 1, sleeps := [] } :=
  ⟨le_refl 2, by decide,
    (c9_classification (fun _ => CallOutcome.err "invalid API key" : Nat → CallOutcome Unit String)
      id (fun _ => 0) 2 "invalid API key" (le_refl 2) rfl).1 (by decide)⟩

/-- C10: the denylist is a plain substring match on the upper-cased
query, so the read-only query `SELECT created_at FROM samples` (whose
column name contains CREATE) is refused with
`{"error": "Only SELECT queries are allowed"}` and never executed. -/
theorem c10_safe_select_rejected :
    (∃ rest, ("SELECT created_at FROM samples" : String) = "SELECT" ++ rest) ∧
    execute_query true true (fun _ => EngineOutcome.ok [] ([] : List (List Unit)))
        "SELECT created_at FROM samples" =
      { result := .error "Only SELECT queries are allowed", executed := false } := by
  refine ⟨⟨" created_at FROM samples", rfl⟩, ?_⟩
  decide

end RnaseqAssistant
